import Mathlib

/-!
Verification of the pydoop build pipeline (`setup.py`): environment probing,
capability detection, glue-code generation and source patching.

The Python code is shallowly embedded: file contents are `List Char`, the
filesystem is a map from path to optional (mtime, contents), environment
variables are a map from name to optional string, and the probing functions
additionally return the list of filesystem locations they actually examined
(so that "the search was never performed" is expressible).  Regular-expression
searches from the source are embedded by their semantics specialized to the
literal patterns used (`hdfsDelete\((.+)\)`, `hdfsConnectAsUser\((.+)\)`,
`void\s+export_(\w+)` and `hadoop\b.*`), with Python's leftmost-then-greedy
matching made explicit.
-/

/-- File contents, as a list of characters. -/
abbrev Chars := List Char

/-- Python `\w` character class (ASCII fragment): letters, digits, underscore. -/
def isWordChar (c : Char) : Bool := c.isAlphanum || c = '_'

/-- Python `\s` character class (ASCII fragment). -/
def isSpaceChar (c : Char) : Bool :=
  c = ' ' || c = '\t' || c = '\n' || c = '\r' || c = '\x0b' || c = '\x0c'

/-- Python `str.split(sep)` for a one-character separator: keeps empty pieces
and always returns at least one piece. -/
def pySplit (sep : Char) : Chars → List Chars
  | [] => [[]]
  | c :: cs =>
    if c = sep then [] :: pySplit sep cs
    else
      match pySplit sep cs with
      | h :: t => (c :: h) :: t
      | [] => [[c]]

/-- Python `old in s` substring test (the empty string occurs in every string). -/
def occursIn (old : Chars) : Chars → Bool
  | [] => old.isEmpty
  | c :: cs => old.isPrefixOf (c :: cs) || occursIn old cs

/-- Fueled scanner behind `pyReplace` for a non-empty pattern `o :: os`:
replace each leftmost non-overlapping occurrence by `new`.  The fuel is the
length of the scanned string, so the recursion is structural. -/
def replaceFuel (o : Char) (os new : Chars) : Nat → Chars → Chars
  | _, [] => []
  | 0, s => s
  | fuel + 1, c :: cs =>
    if (o :: os).isPrefixOf (c :: cs) then
      new ++ replaceFuel o os new fuel (cs.drop os.length)
    else
      c :: replaceFuel o os new fuel cs

/-- Python `s.replace(old, new)`: every non-overlapping occurrence of `old`
is replaced by `new`, scanning left to right; an empty `old` inserts `new`
before every character and at the end. -/
def pyReplace (old new s : Chars) : Chars :=
  match old with
  | [] => new ++ s.foldr (fun c acc => c :: (new ++ acc)) []
  | o :: os => replaceFuel o os new s.length s

/-- Sequential application of a patch table (`for old, new in p.iteritems():
contents = contents.replace(old, new)`). -/
def applyPatches (contents : Chars) (p : List (Chars × Chars)) : Chars :=
  p.foldl (fun c q => pyReplace q.1 q.2 c) contents

/-- Python `os.path.join` for two components: an absolute second component
wins; otherwise a separator is inserted unless the first component is empty
or already ends with one. -/
def pyJoin (a b : String) : String :=
  if b.toList.take 1 = ['/'] then b
  else if a = "" || a.toList.reverse.take 1 = ['/'] then a ++ b
  else a ++ "/" ++ b

/-- Python `os.path.join` folded over several components. -/
def pyJoinL (a : String) (bs : List String) : String := bs.foldl pyJoin a

/-- Python `os.path.basename`: the part after the last slash. -/
def baseName (s : String) : String :=
  String.mk ((s.toList.reverse.takeWhile (fun c => c ≠ '/')).reverse)

/-- Python `os.path.dirname` / `os.path.split(...)[0]`: the part before the
last slash, with trailing slashes stripped unless it is all slashes. -/
def pyDirname (s : String) : String :=
  let head := (s.toList.reverse.dropWhile (fun c => c ≠ '/')).reverse
  if head ≠ [] ∧ ¬ head.all (fun c => c = '/') then
    String.mk ((head.reverse.dropWhile (fun c => c = '/')).reverse)
  else String.mk head

/-!  Staleness gate (`must_generate`, `mtime`).  The filesystem is abstracted
to the mtime map `mt : String → Option Nat`; `mt p = none` means `os.stat`
raises `OSError` for `p`.  `must_generate` returns `none` exactly when the
Python code would escape the caught `OSError` (empty prerequisite list:
`max()` raises an uncaught `ValueError`). -/

/-- The mtimes of a list of paths, `none` as soon as one `os.stat` fails. -/
def mtimesOf (mt : String → Option Nat) : List String → Option (List Nat)
  | [] => some []
  | p :: ps =>
    match mt p with
    | none => none
    | some m => (mtimesOf mt ps).map (fun ms => m :: ms)

/-- Function `must_generate(target, prerequisites)` from `setup.py`: `True` iff the
newest prerequisite is strictly newer than the target, where any `OSError`
(a missing prerequisite or a missing target) yields `True`. -/
def must_generate (mt : String → Option Nat) (target : String)
    (prerequisites : List String) : Option Bool :=
  match prerequisites with
  | [] => none
  | _ :: _ =>
    match mtimesOf mt prerequisites with
    | none => some true
    | some ms =>
      match mt target with
      | none => some true
      | some t => some (decide (t < ms.foldl Nat.max 0))

/-! Lemmas about the staleness gate. -/

theorem mtimesOf_isSome (mt : String → Option Nat) (l : List String)
    (h : ∀ p ∈ l, (mt p).isSome = true) : ∃ ms, mtimesOf mt l = some ms := by
  induction l with
  | nil => exact ⟨[], rfl⟩
  | cons p ps ih =>
    obtain ⟨m, hm⟩ := Option.isSome_iff_exists.mp (h p (List.mem_cons_self p ps))
    obtain ⟨ms, hms⟩ := ih (fun q hq => h q (List.mem_cons_of_mem p hq))
    exact ⟨m :: ms, by simp [mtimesOf, hm, hms]⟩

theorem lt_foldl_max (t a : Nat) (ms : List Nat) :
    t < ms.foldl Nat.max a ↔ t < a ∨ ∃ m ∈ ms, t < m := by
  induction ms generalizing a with
  | nil => simp
  | cons m ms ih =>
    rw [List.foldl_cons, ih]
    have hmax : ∀ x : Nat, t < Nat.max x m ↔ t < x ∨ t < m := fun x =>
      lt_max_iff
    constructor
    · rintro (h | ⟨x, hx, hxt⟩)
      · rcases (hmax a).mp h with h' | h'
        · exact Or.inl h'
        · exact Or.inr ⟨m, List.mem_cons_self m ms, h'⟩
      · exact Or.inr ⟨x, List.mem_cons_of_mem m hx, hxt⟩
    · rintro (h | ⟨x, hx, hxt⟩)
      · exact Or.inl ((hmax a).mpr (Or.inl h))
      · rcases List.mem_cons.mp hx with rfl | hx'
        · exact Or.inl ((hmax a).mpr (Or.inr hxt))
        · exact Or.inr ⟨x, hx', hxt⟩

theorem mem_mtimesOf (mt : String → Option Nat) (l : List String)
    (ms : List Nat) (x : Nat) (h : mtimesOf mt l = some ms) :
    (x ∈ ms ↔ ∃ p ∈ l, mt p = some x) := by
  induction l generalizing ms with
  | nil =>
    simp only [mtimesOf, Option.some_inj] at h
    subst h
    simp
  | cons p ps ih =>
    simp only [mtimesOf] at h
    cases hp : mt p with
    | none => rw [hp] at h; exact absurd h (by simp)
    | some m =>
      rw [hp] at h
      cases hps : mtimesOf mt ps with
      | none => rw [hps] at h; exact absurd h (by simp)
      | some ms' =>
        rw [hps] at h
        simp only [Option.map_some] at h
        obtain rfl : m :: ms' = ms := Option.some_inj.mp h
        constructor
        · intro hx
          rcases List.mem_cons.mp hx with rfl | hx'
          · exact ⟨p, List.mem_cons_self p ps, hp⟩
          · obtain ⟨q, hq, hqx⟩ := (ih ms' hps).mp hx'
            exact ⟨q, List.mem_cons_of_mem p hq, hqx⟩
        · rintro ⟨q, hq, hqx⟩
          rcases List.mem_cons.mp hq with rfl | hq'
          · rw [hp] at hqx
            obtain rfl : m = x := Option.some_inj.mp hqx
            exact List.mem_cons_self _ _
          · exact List.mem_cons_of_mem m ((ih ms' hps).mpr ⟨q, hq', hqx⟩)

theorem mtimesOf_lt_max (mt : String → Option Nat) (l : List String)
    (ms : List Nat) (t : Nat) (h : mtimesOf mt l = some ms) :
    (t < ms.foldl Nat.max 0 ↔ ∃ p ∈ l, ∃ m, mt p = some m ∧ t < m) := by
  rw [lt_foldl_max]
  constructor
  · rintro (h0 | ⟨m, hm, hmt⟩)
    · omega
    · obtain ⟨p, hp, hpm⟩ := (mem_mtimesOf mt l ms m h).mp hm
      exact ⟨p, hp, m, hpm, hmt⟩
  · rintro ⟨p, hp, m, hpm, hmt⟩
    exact Or.inr ⟨m, (mem_mtimesOf mt l ms m h).mpr ⟨p, hp, hpm⟩, hmt⟩

/-- C2: for a target and a non-empty list of prerequisites that all exist,
`must_generate` returns a value (no exception escapes), and that value is
`true` exactly when the target is absent or some prerequisite (equivalently,
the newest prerequisite) is strictly newer than the target; in particular,
with the target present and no input newer, it returns `false` and no
regeneration happens. -/
theorem C2_must_generate_iff_stale (mt : String → Option Nat) (target : String)
    (prerequisites : List String) (hne : prerequisites ≠ [])
    (hex : ∀ p ∈ prerequisites, (mt p).isSome = true) :
    ∃ b, must_generate mt target prerequisites = some b ∧
      (b = true ↔ (mt target = none ∨
        ∃ tm, mt target = some tm ∧
          ∃ p ∈ prerequisites, ∃ m, mt p = some m ∧ tm < m)) := by
  obtain ⟨ms, hms⟩ := mtimesOf_isSome mt prerequisites hex
  cases prerequisites with
  | nil => exact absurd rfl hne
  | cons q qs =>
    cases ht : mt target with
    | none =>
      refine ⟨true, ?_, by simp⟩
      simp only [must_generate, hms, ht]
    | some tm =>
      refine ⟨decide (tm < ms.foldl Nat.max 0), ?_, ?_⟩
      · simp only [must_generate, hms, ht]
      · rw [decide_eq_true_iff, mtimesOf_lt_max mt (q :: qs) ms tm hms]
        constructor
        · intro h; exact Or.inr ⟨tm, rfl, h⟩
        · rintro (h | ⟨tm', htm', h⟩)
          · exact absurd h (by simp)
          · obtain rfl : tm = tm' := Option.some_inj.mp htm'
            exact h

/-- Concrete mtime map for the C2 witness: the prerequisite exists and is
older than the existing target. -/
def c2mt : String → Option Nat := fun p =>
  if p = "src/pipes.cpp" then some 5
  else if p = "src/_pipes_main.cpp" then some 9
  else none

/-- C2 witness: with one prerequisite older than the present target,
`must_generate` reports `false` (no regeneration). -/
theorem C2_must_generate_iff_stale_witness :
    ∃ b, must_generate c2mt "src/_pipes_main.cpp" ["src/pipes.cpp"] = some b ∧
      (b = true ↔ (c2mt "src/_pipes_main.cpp" = none ∨
        ∃ tm, c2mt "src/_pipes_main.cpp" = some tm ∧
          ∃ p ∈ ["src/pipes.cpp"], ∃ m, c2mt p = some m ∧ tm < m)) :=
  C2_must_generate_iff_stale c2mt "src/_pipes_main.cpp" ["src/pipes.cpp"]
    (by decide) (by decide)

/-!  Capability detector (`get_hdfs_macros`).  The source locates the
parameter lists via `re.search(r"hdfsDelete\((.+)\)", t)` and
`re.search(r"hdfsConnectAsUser\((.+)\)", t)`.  Python `re` semantics for
these patterns: the leftmost position where the literal prefix matches and
where, on the same line (`.` does not match a newline), a `)` occurs at
offset at least one past the opening parenthesis; the greedy `(.+)` group
then extends to the last such `)` of the line. -/

/-- Index of the last `)` in a line, if any. -/
def lastCloseParen (line : Chars) : Option Nat :=
  match line.reverse.findIdx? (fun c => c = ')') with
  | none => none
  | some k => some (line.length - 1 - k)

/-- The greedy group captured by `(.+)\)` on the text following the literal
opening: everything on the current line up to its last `)`, provided the
group is non-empty. -/
def greedyParenGroup (s : Chars) : Option Chars :=
  let line := s.takeWhile (fun c => c ≠ '\n')
  match lastCloseParen line with
  | none => none
  | some j => if 1 ≤ j then some (line.take j) else none

/-- Semantics of `re.search` for a pattern `lit\((.+)\)`: scan left to right for the
first position where the literal (with its opening parenthesis) matches and
the greedy group exists, and return the group. -/
def searchParen (pat : Chars) : Chars → Option Chars
  | [] => none
  | c :: cs =>
    if pat.isPrefixOf (c :: cs) then
      match greedyParenGroup ((c :: cs).drop pat.length) with
      | some g => some g
      | none => searchParen pat cs
    else searchParen pat cs

/-- The literal prefix of the `hdfsDelete` signature pattern. -/
def delPattern : Chars := "hdfsDelete(".toList

/-- The literal prefix of the `hdfsConnectAsUser` signature pattern. -/
def casPattern : Chars := "hdfsConnectAsUser(".toList

/-- Function `get_hdfs_macros` from `setup.py`: split each discovered parameter list
on commas and derive the feature macros; `none` models the uncaught
exception when either signature is absent from the header. -/
def get_hdfs_macros (t : Chars) : Option (List (String × Option String)) :=
  match searchParen delPattern t with
  | none => none
  | some d =>
    match searchParen casPattern t with
    | none => none
    | some c =>
      some
        ((if 2 < (pySplit ',' d).length then
            [("RECURSIVE_DELETE", (none : Option String))] else []) ++
         (if 3 < (pySplit ',' c).length then
            [("CONNECT_GROUP_INFO", (none : Option String))] else []))

/-- C1: whenever both signature searches succeed, the returned macro list
contains `("RECURSIVE_DELETE", None)` iff the `hdfsDelete` parameter list
splits on commas into more than 2 parts, and `("CONNECT_GROUP_INFO", None)`
iff the `hdfsConnectAsUser` parameter list splits into more than 3 parts
(so with exactly the minimal counts the flags are absent). -/
theorem C1_hdfs_macro_flags (t d c : Chars) (ms : List (String × Option String))
    (hd : searchParen delPattern t = some d)
    (hc : searchParen casPattern t = some c)
    (hms : get_hdfs_macros t = some ms) :
    ((("RECURSIVE_DELETE", (none : Option String)) ∈ ms ↔
        2 < (pySplit ',' d).length) ∧
     (("CONNECT_GROUP_INFO", (none : Option String)) ∈ ms ↔
        3 < (pySplit ',' c).length)) := by
  simp only [get_hdfs_macros, hd, hc, Option.some_inj] at hms
  subst hms
  by_cases h2 : 2 < (pySplit ',' d).length <;>
    by_cases h3 : 3 < (pySplit ',' c).length <;>
      simp [h2, h3]

/-- A concrete header text for the C1 witness. -/
def c1hdr : Chars :=
  "int hdfsDelete(hdfsFS fs, const char* path, int recursive);\nhdfsFS hdfsConnectAsUser(const char* host, tPort port, const char *user, const char **groups, int groups_size);".toList

/-- C1 witness: on a header whose delete signature has 3 parameters and whose
connect-as-user signature has 5, both macros are reported. -/
theorem C1_hdfs_macro_flags_witness :
    ((("RECURSIVE_DELETE", (none : Option String)) ∈
        [("RECURSIVE_DELETE", (none : Option String)),
         ("CONNECT_GROUP_INFO", (none : Option String))] ↔
        2 < (pySplit ',' "hdfsFS fs, const char* path, int recursive".toList).length) ∧
     (("CONNECT_GROUP_INFO", (none : Option String)) ∈
        [("RECURSIVE_DELETE", (none : Option String)),
         ("CONNECT_GROUP_INFO", (none : Option String))] ↔
        3 < (pySplit ',' "const char* host, tPort port, const char *user, const char **groups, int groups_size".toList).length)) :=
  C1_hdfs_macro_flags c1hdr
    "hdfsFS fs, const char* path, int recursive".toList
    "const char* host, tPort port, const char *user, const char **groups, int groups_size".toList
    [("RECURSIVE_DELETE", (none : Option String)),
     ("CONNECT_GROUP_INFO", (none : Option String))]
    (by decide) (by decide) (by decide)

/-!  Glue generator (`BoostExtension.generate_main`) and source patcher
(`BoostExtension.generate_patched_aux`).  A filesystem maps each path to
`none` (opening raises `IOError`, `os.stat` raises `OSError`) or to its
mtime and contents. -/

/-- Filesystem abstraction for generation: path to (mtime, contents). -/
abbrev FileMap := String → Option (Nat × Chars)

/-- The mtime view of a `FileMap`. -/
def fsMt (fs : FileMap) : String → Option Nat := fun p => (fs p).map Prod.fst

/-- The export pattern `void\s+export_(\w+)` matched at offset `i` of a wrap
source: the literal `void`, then one or more whitespace characters, then the
literal `export_`, then the captured non-empty greedy run of word
characters. -/
def exportMatchAt (code : Chars) (i : Nat) : Option Chars :=
  let s := code.drop i
  if s.take 4 = "void".toList then
    let r1 := s.drop 4
    if r1.takeWhile isSpaceChar = [] then none
    else
      let r2 := r1.dropWhile isSpaceChar
      if r2.take 7 = "export_".toList then
        let w := (r2.drop 7).takeWhile isWordChar
        if w = [] then none else some w
      else none
  else none

/-- Semantics of `BoostExtension.export_pattern.search(code)`: the group of the leftmost
match of `void\s+export_(\w+)`, scanning positions left to right. -/
def export_search : Chars → Option Chars
  | [] => none
  | c :: cs =>
    match exportMatchAt (c :: cs) 0 with
    | some g => some g
    | none => export_search cs

/-- The forward-declaration line emitted for a captured suffix. -/
def declLine (g : Chars) : String := "void export_" ++ String.mk g ++ "();"

/-- The invocation line emitted for a captured suffix. -/
def invLine (g : Chars) : String := "export_" ++ String.mk g ++ "();"

/-- One iteration of the `generate_main` loop: append a forward declaration
and an invocation to the two halves when the export pattern matches,
otherwise leave both halves unchanged. -/
def gmStep (acc : List String × List String) (code : Chars) :
    List String × List String :=
  match export_search code with
  | some g => (acc.1 ++ [declLine g], acc.2 ++ [invLine g])
  | none => acc

/-- The body of `generate_main`: the loop over the wrap sources' contents
accumulating the two halves, then the emitted sequence of lines
(`first_half` followed by `second_half` and the closing brace). -/
def generate_main_lines (module_name : String) (codes : List Chars) :
    List String :=
  let r := codes.foldl gmStep
    (["#include <boost/python.hpp>"],
     ["BOOST_PYTHON_MODULE(" ++ module_name ++ ")\x7b"])
  r.1 ++ (r.2 ++ ["\x7d"])

/-- Read the contents of each wrap source in order; `none` as soon as one
`open` fails. -/
def readAll (fs : FileMap) : List String → Option (List Chars)
  | [] => some []
  | f :: rest =>
    match fs f with
    | none => none
    | some mc => (readAll fs rest).map (fun cs => mc.2 :: cs)

/-- Method `generate_main` with its staleness gate and file reads: `Except.error`
models an uncaught exception (empty wrap-source list, or a wrap source that
cannot be opened); `Except.ok none` means the output was up to date and
nothing was written; `Except.ok (some lines)` means `lines` were written. -/
def generate_main_run (fs : FileMap) (module_name : String)
    (wrap_sources : List String) : Except Unit (Option (List String)) :=
  match wrap_sources with
  | [] => Except.error ()
  | w0 :: _ =>
    let destdir := pyDirname w0
    let outfn := pyJoin destdir (module_name ++ "_main.cpp")
    if must_generate (fsMt fs) outfn wrap_sources = some true then
      match readAll fs wrap_sources with
      | none => Except.error ()
      | some codes => Except.ok (some (generate_main_lines module_name codes))
    else Except.ok none

/-- The fixed staging destination used by `generate_patched_aux`:
`"src/%s" % os.path.basename(fn)`. -/
def patched_dest (fn : String) : String := "src/" ++ baseName fn

/-- One iteration of the `generate_patched_aux` loop for a patched file `fn`
with replacement table `p`: staleness-gated copy-and-patch.  `Except.error`
models the uncaught `IOError` when the original cannot be opened;
`Except.ok none` means the staged copy was up to date; `Except.ok (some c)`
means contents `c` were written to the staged destination. -/
def generate_patched_one (fs : FileMap) (fn : String)
    (p : List (Chars × Chars)) : Except Unit (Option Chars) :=
  if must_generate (fsMt fs) (patched_dest fn) [fn] = some true then
    match fs fn with
    | none => Except.error ()
    | some mc => Except.ok (some (applyPatches mc.2 p))
  else Except.ok none

/-! Lemmas about the glue generator. -/

theorem exportMatchAt_nil (i : Nat) : exportMatchAt [] i = none := by
  cases i <;> rfl

theorem exportMatchAt_succ (c : Char) (cs : Chars) (i : Nat) :
    exportMatchAt (c :: cs) (i + 1) = exportMatchAt cs i := rfl

/-- Python `re.search` records the leftmost match: if the pattern matches at `i`
and at no earlier position, the search returns the group captured at `i`. -/
theorem export_search_of_first (code : Chars) (i : Nat) (g : Chars)
    (hm : exportMatchAt code i = some g)
    (hfirst : ∀ k, k < i → exportMatchAt code k = none) :
    export_search code = some g := by
  induction code generalizing i with
  | nil => rw [exportMatchAt_nil] at hm; exact absurd hm (by simp)
  | cons c cs ih =>
    cases i with
    | zero => simp only [export_search, hm]
    | succ i' =>
      have h0 : exportMatchAt (c :: cs) 0 = none := hfirst 0 (Nat.succ_pos i')
      simp only [export_search, h0]
      exact ih i' (by rw [← exportMatchAt_succ]; exact hm)
        (fun k hk => by
          rw [← exportMatchAt_succ]
          exact hfirst (k + 1) (Nat.succ_lt_succ hk))

theorem gmStep_fold (codes : List Chars) (a b : List String) :
    codes.foldl gmStep (a, b) =
      (a ++ (codes.filterMap export_search).map declLine,
       b ++ (codes.filterMap export_search).map invLine) := by
  induction codes generalizing a b with
  | nil => simp
  | cons c cs ih =>
    rw [List.foldl_cons]
    cases h : export_search c with
    | none =>
      rw [List.filterMap_cons_none h]
      simpa [gmStep, h] using ih a b
    | some g =>
      rw [List.filterMap_cons_some h]
      simp only [gmStep, h]
      rw [ih]
      simp [List.append_assoc]

/-- The emitted line sequence, in closed form: the fixed include line, one
forward declaration per matching wrap source in order, the fixed module
header, one invocation per matching wrap source in order, and the closing
brace; non-matching sources contribute nothing. -/
theorem generate_main_lines_eq (module_name : String) (codes : List Chars) :
    generate_main_lines module_name codes =
      "#include <boost/python.hpp>" ::
        ((codes.filterMap export_search).map declLine
          ++ ("BOOST_PYTHON_MODULE(" ++ module_name ++ ")\x7b") ::
            ((codes.filterMap export_search).map invLine ++ ["\x7d"])) := by
  simp only [generate_main_lines]
  rw [gmStep_fold]
  simp

theorem must_generate_isSome (mt : String → Option Nat) (target w : String)
    (ws : List String) : ∃ b, must_generate mt target (w :: ws) = some b := by
  cases h : mtimesOf mt (w :: ws) with
  | none => exact ⟨true, by simp [must_generate, h]⟩
  | some ms =>
    cases ht : mt target with
    | none => exact ⟨true, by simp [must_generate, h, ht]⟩
    | some t =>
      exact ⟨decide (t < ms.foldl Nat.max 0), by simp [must_generate, h, ht]⟩

/-- C3: for every list of wrap sources (readable, non-empty), the generated
entry-point line sequence is exactly: the include line, one forward
declaration `void export_<suffix>();` per wrap source whose text matches the
export pattern, in wrap-source order, the module header, one invocation
`export_<suffix>();` per matching wrap source in the same order, and the
closing brace; wrap sources with no match contribute no line, and the run
raises no error. -/
theorem C3_glue_completeness (module_name : String) (fs : FileMap)
    (ws : List String) (codes : List Chars)
    (hne : ws ≠ []) (hread : readAll fs ws = some codes) :
    generate_main_lines module_name codes =
      "#include <boost/python.hpp>" ::
        ((codes.filterMap export_search).map declLine
          ++ ("BOOST_PYTHON_MODULE(" ++ module_name ++ ")\x7b") ::
            ((codes.filterMap export_search).map invLine ++ ["\x7d"])) ∧
    ∃ r, generate_main_run fs module_name ws = Except.ok r := by
  refine ⟨generate_main_lines_eq module_name codes, ?_⟩
  cases ws with
  | nil => exact absurd rfl hne
  | cons w0 rest =>
    by_cases htrue : must_generate (fsMt fs)
        (pyJoin (pyDirname w0) (module_name ++ "_main.cpp")) (w0 :: rest) =
        some true
    · exact ⟨some (generate_main_lines module_name codes),
        by simp [generate_main_run, htrue, hread]⟩
    · exact ⟨none, by simp [generate_main_run, htrue]⟩

/-- Contents of the matching wrap source for the C3 witness. -/
def c3a : Chars := "using namespace boost::python;\nvoid export_pipes()".toList

/-- Contents of the non-matching wrap source for the C3 witness. -/
def c3b : Chars := "static int helper(int x);".toList

/-- Filesystem for the C3 witness: two readable wrap sources, no output. -/
def c3fs : FileMap := fun p =>
  if p = "src/a.cpp" then some (1, c3a)
  else if p = "src/b.cpp" then some (2, c3b)
  else none

/-- C3 witness: with wrap sources `[a, b]` where only `a` matches, the
emitted lines hold exactly one declaration and one invocation, and the run
succeeds. -/
theorem C3_glue_completeness_witness :
    generate_main_lines "_pipes" [c3a, c3b] =
      "#include <boost/python.hpp>" ::
        ((([c3a, c3b] : List Chars).filterMap export_search).map declLine
          ++ ("BOOST_PYTHON_MODULE(" ++ "_pipes" ++ ")\x7b") ::
            ((([c3a, c3b] : List Chars).filterMap export_search).map invLine
              ++ ["\x7d"])) ∧
    ∃ r, generate_main_run c3fs "_pipes" ["src/a.cpp", "src/b.cpp"] =
      Except.ok r :=
  C3_glue_completeness "_pipes" c3fs ["src/a.cpp", "src/b.cpp"] [c3a, c3b]
    (by simp) (by decide)

/-- C10: if a wrap source's text matches the export pattern at position `i`,
at no earlier position, and again at some later position `j`, the generated
entry point carries exactly one forward declaration and one invocation for
that file, both named after the first match; every later occurrence
contributes nothing. -/
theorem C10_first_export_only (module_name : String) (pre post : List Chars)
    (code : Chars) (i j : Nat) (g : Chars)
    (hm : exportMatchAt code i = some g)
    (hfirst : ∀ k, k < i → exportMatchAt code k = none)
    (hij : i < j) (hj : (exportMatchAt code j).isSome = true) :
    generate_main_lines module_name (pre ++ code :: post) =
      "#include <boost/python.hpp>" ::
        (((pre.filterMap export_search).map declLine
            ++ declLine g :: (post.filterMap export_search).map declLine)
          ++ ("BOOST_PYTHON_MODULE(" ++ module_name ++ ")\x7b") ::
            (((pre.filterMap export_search).map invLine
                ++ invLine g :: (post.filterMap export_search).map invLine)
              ++ ["\x7d"])) := by
  have hs : export_search code = some g := export_search_of_first code i g hm hfirst
  rw [generate_main_lines_eq]
  rw [List.filterMap_append, List.filterMap_cons_some hs]
  simp [List.map_append]

/-- Wrap source for the C10 witness, with two export declarations. -/
def c10code : Chars := "void export_first(); void export_second();".toList

/-- C10 witness: the file with two export declarations produces one
declaration and one invocation, named after the first occurrence. -/
theorem C10_first_export_only_witness :
    generate_main_lines "_hdfs" ([] ++ c10code :: []) =
      "#include <boost/python.hpp>" ::
        (((([] : List Chars).filterMap export_search).map declLine
            ++ declLine "first".toList ::
              (([] : List Chars).filterMap export_search).map declLine)
          ++ ("BOOST_PYTHON_MODULE(" ++ "_hdfs" ++ ")\x7b") ::
            (((([] : List Chars).filterMap export_search).map invLine
                ++ invLine "first".toList ::
                  (([] : List Chars).filterMap export_search).map invLine)
              ++ ["\x7d"])) :=
  C10_first_export_only "_hdfs" [] [] c10code 0 21 "first".toList
    (by decide) (fun k hk => absurd hk (Nat.not_lt_zero k)) (by decide)
    (by decide)

/-! Lemmas about Python `str.replace` and the patch table. -/

theorem replaceFuel_congr (o : Char) (os new : Chars) (fuel₁ : Nat) :
    ∀ (fuel₂ : Nat) (s : Chars), s.length ≤ fuel₁ → s.length ≤ fuel₂ →
      replaceFuel o os new fuel₁ s = replaceFuel o os new fuel₂ s := by
  induction fuel₁ with
  | zero =>
    intro fuel₂ s h1 _
    have hs : s = [] := List.eq_nil_of_length_eq_zero (Nat.le_zero.mp h1)
    subst hs
    cases fuel₂ <;> rfl
  | succ f ih =>
    intro fuel₂ s h1 h2
    cases s with
    | nil => cases fuel₂ <;> rfl
    | cons c cs =>
      cases fuel₂ with
      | zero => simp at h2
      | succ g =>
        simp only [List.length_cons, Nat.succ_le_succ_iff] at h1 h2
        simp only [replaceFuel]
        cases hp : (o :: os).isPrefixOf (c :: cs) with
        | true =>
          simp only [hp, if_true]
          congr 1
          exact ih g (cs.drop os.length)
            (by rw [List.length_drop]; omega) (by rw [List.length_drop]; omega)
        | false =>
          simp only [hp, Bool.false_eq_true, if_false]
          congr 1
          exact ih g cs h1 h2

theorem replaceFuel_of_not_occurs (o : Char) (os new : Chars) (s : Chars) :
    ∀ fuel, occursIn (o :: os) s = false → replaceFuel o os new fuel s = s := by
  induction s with
  | nil => intro fuel _; cases fuel <;> rfl
  | cons c cs ih =>
    intro fuel h
    simp only [occursIn, Bool.or_eq_false_iff] at h
    cases fuel with
    | zero => rfl
    | succ f =>
      simp only [replaceFuel, h.1, Bool.false_eq_true, if_false]
      rw [ih f h.2]

/-- If the pattern never occurs in `s`, Python replace leaves `s` intact. -/
theorem pyReplace_of_not_occurs (old new s : Chars)
    (h : occursIn old s = false) : pyReplace old new s = s := by
  cases old with
  | nil => exfalso; cases s <;> simp [occursIn, List.isPrefixOf] at h
  | cons o os => exact replaceFuel_of_not_occurs o os new s s.length h

/-- Replacing at a leftmost occurrence: the occurrence itself becomes `new`
and scanning continues past it. -/
theorem pyReplace_head (old new b : Chars) (hne : old ≠ []) :
    pyReplace old new (old ++ b) = new ++ pyReplace old new b := by
  cases old with
  | nil => exact absurd rfl hne
  | cons o os =>
    show replaceFuel o os new ((o :: os) ++ b).length ((o :: os) ++ b) = _
    simp only [List.cons_append, List.length_cons]
    simp only [replaceFuel]
    have hp : (o :: os).isPrefixOf (o :: (os ++ b)) = true := by
      rw [List.isPrefixOf_iff_prefix]
      exact List.prefix_append (o :: os) b
    simp only [hp, if_true]
    congr 1
    rw [List.drop_left]
    exact replaceFuel_congr o os new (os ++ b).length b.length b
      (by rw [List.length_append]; omega) (Nat.le_refl _)

/-- A head position where the pattern does not match is copied verbatim. -/
theorem pyReplace_skip (old new : Chars) (c : Char) (s : Chars)
    (hne : old ≠ []) (h : old.isPrefixOf (c :: s) = false) :
    pyReplace old new (c :: s) = c :: pyReplace old new s := by
  cases old with
  | nil => exact absurd rfl hne
  | cons o os =>
    show replaceFuel o os new (c :: s).length (c :: s) = _
    simp only [List.length_cons, replaceFuel, h, Bool.false_eq_true, if_false]
    rfl

/-- A region `a` in which the pattern starts no occurrence is copied
verbatim and scanning proceeds on the remainder. -/
theorem pyReplace_append_of_no_match (old new : Chars) (a : Chars) (s : Chars)
    (hne : old ≠ [])
    (h : ∀ i, i < a.length → old.isPrefixOf ((a ++ s).drop i) = false) :
    pyReplace old new (a ++ s) = a ++ pyReplace old new s := by
  induction a with
  | nil => simp
  | cons c a' ih =>
    have h0 : old.isPrefixOf (c :: (a' ++ s)) = false := by
      have := h 0 (Nat.succ_pos a'.length)
      simpa using this
    rw [List.cons_append, pyReplace_skip old new c (a' ++ s) hne h0]
    rw [ih (fun i hi => by
      have := h (i + 1) (Nat.succ_lt_succ hi)
      simpa using this)]
    rfl

/-- If no key of the patch table occurs in the text, the sequential
application leaves the text intact. -/
theorem applyPatches_of_not_occurs (orig : Chars) (p : List (Chars × Chars))
    (h : ∀ kv ∈ p, occursIn kv.1 orig = false) :
    applyPatches orig p = orig := by
  induction p with
  | nil => rfl
  | cons q p' ih =>
    show applyPatches (pyReplace q.1 q.2 orig) p' = orig
    rw [pyReplace_of_not_occurs q.1 q.2 orig (h q (List.mem_cons_self q p'))]
    exact ih (fun kv hkv => h kv (List.mem_cons_of_mem q hkv))

/-- C4: when the staleness gate triggers regeneration of a patched source,
the staged file sits at the fixed destination (the module source directory
joined with the original's base name) and its content is the original text
with the replacement table applied: an empty table, or a table none of whose
keys occurs in the text, leaves the content byte-identical, and a single
(non-empty) key is replaced at every (leftmost-first) occurrence by its
value. -/
theorem C4_patch_application (fs : FileMap) (fn : String)
    (p : List (Chars × Chars)) (m : Nat) (orig c : Chars)
    (hfs : fs fn = some (m, orig))
    (hrun : generate_patched_one fs fn p = Except.ok (some c)) :
    (patched_dest fn = "src/" ++ baseName fn ∧
     c = applyPatches orig p ∧
     (p = [] → c = orig) ∧
     ((∀ kv ∈ p, occursIn kv.1 orig = false) → c = orig) ∧
     (∀ old new a b, old ≠ [] → p = [(old, new)] → orig = a ++ old ++ b →
       (∀ i, i < a.length → old.isPrefixOf ((a ++ old ++ b).drop i) = false) →
       c = a ++ (new ++ pyReplace old new b))) := by
  have hc : c = applyPatches orig p := by
    by_cases hcond :
        must_generate (fsMt fs) (patched_dest fn) [fn] = some true
    · unfold generate_patched_one at hrun
      rw [if_pos hcond, hfs] at hrun
      simp only [Except.ok.injEq, Option.some.injEq] at hrun
      exact hrun.symm
    · unfold generate_patched_one at hrun
      rw [if_neg hcond] at hrun
      simp at hrun
  refine ⟨rfl, hc, ?_, ?_, ?_⟩
  · intro hp; subst hp; exact hc
  · intro hno; rw [hc]; exact applyPatches_of_not_occurs orig p hno
  · intro old new a b hne hp horig hnm
    subst hp
    subst horig
    have h1 : applyPatches (a ++ old ++ b) [(old, new)] =
        pyReplace old new (a ++ old ++ b) := rfl
    rw [hc, h1, List.append_assoc]
    rw [pyReplace_append_of_no_match old new a (old ++ b) hne
      (fun i hi => by rw [← List.append_assoc]; exact hnm i hi)]
    rw [pyReplace_head old new b hne]

/-- Original contents for the C4 witness. -/
def c4orig : Chars := "begin OLD middle OLD end".toList

/-- Filesystem for the C4 witness: the original exists, the staged copy does
not (so regeneration occurs). -/
def c4fs : FileMap := fun p =>
  if p = "hadoop/utils/impl/SerialUtils.cc" then some (7, c4orig) else none

/-- The single-entry patch table for the C4 witness. -/
def c4p : List (Chars × Chars) := [("OLD".toList, "NEW".toList)]

/-- C4 witness: the staged copy of a file containing `OLD` twice has both
occurrences replaced by `NEW`, at the fixed `src/`-local destination. -/
theorem C4_patch_application_witness :
    (patched_dest "hadoop/utils/impl/SerialUtils.cc" =
       "src/" ++ baseName "hadoop/utils/impl/SerialUtils.cc" ∧
     "begin NEW middle NEW end".toList = applyPatches c4orig c4p ∧
     (c4p = [] → "begin NEW middle NEW end".toList = c4orig) ∧
     ((∀ kv ∈ c4p, occursIn kv.1 c4orig = false) →
       "begin NEW middle NEW end".toList = c4orig) ∧
     (∀ old new a b, old ≠ [] → c4p = [(old, new)] → c4orig = a ++ old ++ b →
       (∀ i, i < a.length →
         old.isPrefixOf ((a ++ old ++ b).drop i) = false) →
       "begin NEW middle NEW end".toList = a ++ (new ++ pyReplace old new b))) :=
  C4_patch_application c4fs "hadoop/utils/impl/SerialUtils.cc" c4p 7 c4orig
    "begin NEW middle NEW end".toList (by decide) rfl

/-! C7 concerns missing input files.  In the source, `must_generate` catches
`OSError`, so a missing prerequisite makes the staleness check *succeed*
with `True` (stale); the failure only happens afterwards, when the loop
body `open(fn)` raises an uncaught `IOError`. -/

theorem mtimesOf_none_of_mem (mt : String → Option Nat) (l : List String)
    (fn : String) (h : mt fn = none) (hm : fn ∈ l) : mtimesOf mt l = none := by
  induction l with
  | nil => exact absurd hm (List.not_mem_nil fn)
  | cons p ps ih =>
    rcases List.mem_cons.mp hm with rfl | hm'
    · simp [mtimesOf, h]
    · cases hp : mt p with
      | none => simp [mtimesOf, hp]
      | some m => simp [mtimesOf, hp, ih hm']

theorem readAll_none_of_mem (fs : FileMap) (ws : List String) (fn : String)
    (h : fs fn = none) (hm : fn ∈ ws) : readAll fs ws = none := by
  induction ws with
  | nil => exact absurd hm (List.not_mem_nil fn)
  | cons p ps ih =>
    rcases List.mem_cons.mp hm with rfl | hm'
    · simp [readAll, h]
    · cases hp : fs p with
      | none => simp [readAll, hp]
      | some mc => simp [readAll, hp, ih hm']

/-- Filesystem for the C7 counterexample: every path is missing. -/
def c7fs : FileMap := fun _ => none

/-- C7 counterexample: with the patch-spec source file missing, the
staleness determination does not fail — it returns the value `true`
(silently treating the artifact as stale), contradicting the claim that
staleness determination over a missing input fails with a
`ConfigurationError`; the patcher then fails later, at the read. -/
theorem C7_stale_check_does_not_fail :
    must_generate (fsMt c7fs) (patched_dest "hadoop/pipes/impl/HadoopPipes.cc")
      ["hadoop/pipes/impl/HadoopPipes.cc"] = some true ∧
    generate_patched_one c7fs "hadoop/pipes/impl/HadoopPipes.cc" [] =
      Except.error () := ⟨rfl, rfl⟩

/-- C7 (amended): for every filesystem in which a patch-spec (or glue) input
file is missing, the staleness check reports stale (it returns `true`, it
does not fail), and the Source Patcher — and likewise the glue generator
for any wrap-source list containing the missing file — then fails with an
uncaught I/O error at the read; there is no silent skip and no completed
regeneration. -/
theorem C7_missing_input_fails_at_read (fs : FileMap) (fn : String)
    (p : List (Chars × Chars)) (hmiss : fs fn = none) :
    must_generate (fsMt fs) (patched_dest fn) [fn] = some true ∧
    generate_patched_one fs fn p = Except.error () ∧
    (∀ module_name ws, fn ∈ ws →
      generate_main_run fs module_name ws = Except.error ()) := by
  have hmt : fsMt fs fn = none := by simp [fsMt, hmiss]
  have hmg : must_generate (fsMt fs) (patched_dest fn) [fn] = some true := by
    simp [must_generate, mtimesOf, hmt]
  refine ⟨hmg, ?_, ?_⟩
  · unfold generate_patched_one
    rw [if_pos hmg, hmiss]
  · intro module_name ws hm
    cases ws with
    | nil => exact absurd hm (List.not_mem_nil fn)
    | cons w0 rest =>
      have hmg' : must_generate (fsMt fs)
          (pyJoin (pyDirname w0) (module_name ++ "_main.cpp")) (w0 :: rest) =
          some true := by
        simp [must_generate, mtimesOf_none_of_mem (fsMt fs) (w0 :: rest) fn hmt hm]
      simp [generate_main_run, hmg',
        readAll_none_of_mem fs (w0 :: rest) fn hmiss hm]

/-- C7 witness: concrete instance of the amended behaviour on the
all-missing filesystem. -/
theorem C7_missing_input_fails_at_read_witness :
    must_generate (fsMt c7fs)
      (patched_dest "hadoop/utils/impl/StringUtils.cc")
      ["hadoop/utils/impl/StringUtils.cc"] = some true ∧
    generate_patched_one c7fs "hadoop/utils/impl/StringUtils.cc" [] =
      Except.error () ∧
    (∀ module_name ws, "hadoop/utils/impl/StringUtils.cc" ∈ ws →
      generate_main_run c7fs module_name ws = Except.error ()) :=
  C7_missing_input_fails_at_read c7fs "hadoop/utils/impl/StringUtils.cc" [] rfl

/-!  Path prober (`SetupPathFinder`).  The probing filesystem is an oracle
with existence tests, directory listing and glob expansion.  Each probe
additionally returns the list of filesystem locations it examined, so that
"the corresponding filesystem search is never performed" is a statement
about the returned trace. -/

/-- Filesystem oracle for probing. -/
structure ProbeFs where
  ex : String → Bool
  ls : String → List String
  glob : String → List String

/-- Python truthiness of `os.getenv(k)`: present and non-empty. -/
def envTruthy (env : String → Option String) (k : String) : Bool :=
  match env k with
  | some v => v != ""
  | none => false

/-- Function `find_first_existing` from `setup.py`, with the list of paths whose
existence was checked.  Note the checks happen even if the caller discards
the result. -/
def find_first_existing (fs : ProbeFs) : List String → Option String × List String
  | [] => (none, [])
  | p :: ps =>
    if fs.ex p then (some p, [p])
    else
      let r := find_first_existing fs ps
      (r.1, p :: r.2)

/-- The `java_home` probe from `SetupPathFinder.__init_paths`:
`os.getenv("JAVA_HOME", find_first_existing(...))`.  Python evaluates the
default argument eagerly, so the conventional-location search runs — and
its trace is non-empty — regardless of whether `JAVA_HOME` is set. -/
def probe_java_home (env : String → Option String) (fs : ProbeFs) :
    Option String × List String :=
  let d := find_first_existing fs ["/opt/sun-jdk", "/usr/lib/jvm/java-6-sun"]
  match env "JAVA_HOME" with
  | some v => (some v, d.2)
  | none => (d.1, d.2)

/-- Semantics of `re.match(r"hadoop\b.*", path)`: `hadoop` at the start, followed by a
word boundary (end of string or a non-word character). -/
def hadoopNameMatch (p : String) : Bool :=
  "hadoop".toList.isPrefixOf p.toList &&
    (match p.toList.drop 6 with
     | [] => true
     | c :: _ => !(isWordChar c))

/-- Python `sorted` on strings (duplicates are equal strings, so any
correct sort produces the same list). -/
def sortedStrings (l : List String) : List String :=
  l.insertionSort (fun a b => a ≤ b)

/-- Method `SetupPathFinder.__find_hadoop_src`: the `HADOOP_SRC` override (if
truthy), else `<hadoop_home>/src` if the home is truthy and that directory
exists, else a scan of `/usr/src` for entries matching the name prefix
(sorted when more than one matches, first entry taken), else `None`. -/
def find_hadoop_src (env : String → Option String) (fs : ProbeFs)
    (hadoop_home : Option String) : Option String × List String :=
  if envTruthy env "HADOOP_SRC" then (env "HADOOP_SRC", [])
  else
    let homeStep : Option String × List String :=
      match hadoop_home with
      | some hh =>
        if hh ≠ "" then
          let src := pyJoin hh "src"
          if fs.ex src then (some src, [src]) else (none, [src])
        else (none, [])
      | none => (none, [])
    match homeStep.1 with
    | some s => (some s, homeStep.2)
    | none =>
      if fs.ex "/usr/src" then
        let path_list := (fs.ls "/usr/src").filter hadoopNameMatch
        let path_list2 :=
          if 1 < path_list.length then sortedStrings path_list else path_list
        match path_list2 with
        | p :: _ => (some (pyJoin "/usr/src" p), homeStep.2 ++ ["/usr/src"])
        | [] => (none, homeStep.2 ++ ["/usr/src"])
      else (none, homeStep.2 ++ ["/usr/src"])

/-- The error message raised by `__init_paths` when no source is found. -/
def srcErrMsg : String :=
  "Couldn't find Hadoop source code, please specify a path through the HADOOP_SRC environment variable or provide HADOOP_HOME with a 'src' directory under it"

/-- How `__init_paths` uses the source probe: `if not self.src: raise`. -/
def probe_src (env : String → Option String) (fs : ProbeFs)
    (hadoop_home : Option String) : Except String String :=
  match (find_hadoop_src env fs hadoop_home).1 with
  | some s => if s = "" then Except.error srcErrMsg else Except.ok s
  | none => Except.error srcErrMsg

/-- Function `get_arch` from `setup.py`, parameterized by the machine's pointer
width. -/
def get_arch (is64 : Bool) : String × String :=
  if is64 then ("amd64", "64") else ("i386", "32")

/-- The architecture string `"Linux-%s-%s" % get_arch()`. -/
def archString (is64 : Bool) : String :=
  "Linux-" ++ (get_arch is64).1 ++ "-" ++ (get_arch is64).2

/-- The path `os.path.join(self.src, "c++", "pipes", "api", "hadoop")`. -/
def pipesApiDir (src : String) : String :=
  pyJoinL src ["c++", "pipes", "api", "hadoop"]

/-- The path `os.path.join(self.src, "c++", "utils", "api", "hadoop")`. -/
def utilsApiDir (src : String) : String :=
  pyJoinL src ["c++", "utils", "api", "hadoop"]

/-- The error message raised when no include directory is found.  Note the
message suggests `HADOOP_INC_PATH` although the variable the code consults
is `HADOOP_INCLUDE_PATHS`. -/
def incErrMsg : String :=
  "Couldn't find Hadoop c++ include directory, try specifying one with HADOOP_INC_PATH"

/-- Method `SetupPathFinder.__set_mapred_inc_paths`: the `HADOOP_INCLUDE_PATHS`
override split on the path separator takes absolute precedence; else the
two conventional api subdirectories under the source root, and if both
exist their parent directories (in that order); else three glob fallbacks
in order, the first match's directory; else the error. -/
def set_mapred_inc_paths (env : String → Option String) (fs : ProbeFs)
    (is64 : Bool) (src : String) :
    Except String (List String) × List String :=
  if envTruthy env "HADOOP_INCLUDE_PATHS" then
    (Except.ok
      ((pySplit ':' ((env "HADOOP_INCLUDE_PATHS").getD "").toList).map
        String.mk), [])
  else
    let p1 := pipesApiDir src
    let p2 := utilsApiDir src
    if fs.ex p1 && fs.ex p2 then
      (Except.ok [pyDirname p1, pyDirname p2], [p1, p2])
    else
      let g1 := pyJoinL src ["mapred", "c++", archString is64, "include", "hadoop"]
      let g2 := pyJoinL src ["c++", archString is64, "include", "hadoop"]
      let g3 := "/usr/include/hadoop*"
      match fs.glob g1 ++ fs.glob g2 ++ fs.glob g3 with
      | c :: _ => (Except.ok [pyDirname c], [p1, p2, g1, g2, g3])
      | [] => (Except.error incErrMsg, [p1, p2, g1, g2, g3])

/-- Environment for the C5 counterexample: only `JAVA_HOME` is set. -/
def envJ : String → Option String :=
  fun k => if k = "JAVA_HOME" then some "/my/jdk" else none

/-- Probing filesystem on which every path exists. -/
def fsAll : ProbeFs :=
  { ex := fun _ => true, ls := fun _ => [], glob := fun _ => [] }

/-- C5 counterexample: with the toolchain-home override `JAVA_HOME` set, the
probed value does equal the override, but the conventional-location
filesystem search IS performed (the default argument of `os.getenv` is
evaluated eagerly): the probe's examined-paths trace is `["/opt/sun-jdk"]`,
not `[]`, refuting "the corresponding filesystem search is never
performed". -/
theorem C5_java_home_search_performed :
    envJ "JAVA_HOME" = some "/my/jdk" ∧
    (probe_java_home envJ fsAll).1 = some "/my/jdk" ∧
    (probe_java_home envJ fsAll).2 = ["/opt/sun-jdk"] := ⟨rfl, rfl, rfl⟩

/-- C5 (amended): when the source-root override `HADOOP_SRC` and the
include-path override `HADOOP_INCLUDE_PATHS` are set (to non-empty values),
the probed values equal the overrides and the corresponding filesystem
searches are never performed (empty traces); for the toolchain-home
override `JAVA_HOME` the probed value equals the override, but the
conventional-location existence checks still run. -/
theorem C5_override_precedence (env : String → Option String) (fs : ProbeFs)
    (hh : Option String) (is64 : Bool) (src : String) (v₁ v₂ v₃ : String)
    (h1 : env "HADOOP_SRC" = some v₁) (h1' : v₁ ≠ "")
    (h2 : env "HADOOP_INCLUDE_PATHS" = some v₂) (h2' : v₂ ≠ "")
    (h3 : env "JAVA_HOME" = some v₃) :
    find_hadoop_src env fs hh = (some v₁, []) ∧
    set_mapred_inc_paths env fs is64 src =
      (Except.ok ((pySplit ':' v₂.toList).map String.mk), []) ∧
    (probe_java_home env fs).1 = some v₃ := by
  refine ⟨?_, ?_, ?_⟩
  · have ht : envTruthy env "HADOOP_SRC" = true := by
      simp [envTruthy, h1, h1']
    simp [find_hadoop_src, ht, h1]
  · have ht : envTruthy env "HADOOP_INCLUDE_PATHS" = true := by
      simp [envTruthy, h2, h2']
    simp [set_mapred_inc_paths, ht, h2]
  · simp [probe_java_home, h3]

/-- Environment for the C5 witness: all three overrides set. -/
def env5 : String → Option String := fun k =>
  if k = "HADOOP_SRC" then some "/override/src"
  else if k = "HADOOP_INCLUDE_PATHS" then some "/inc/a:/inc/b"
  else if k = "JAVA_HOME" then some "/my/jdk" else none

/-- C5 witness: the amended override behaviour at a concrete environment in
which every conventional path exists. -/
theorem C5_override_precedence_witness :
    find_hadoop_src env5 fsAll (some "/opt/hadoop") = (some "/override/src", []) ∧
    set_mapred_inc_paths env5 fsAll true "/s" =
      (Except.ok ((pySplit ':' "/inc/a:/inc/b".toList).map String.mk), []) ∧
    (probe_java_home env5 fsAll).1 = some "/my/jdk" :=
  C5_override_precedence env5 fsAll (some "/opt/hadoop") true "/s"
    "/override/src" "/inc/a:/inc/b" "/my/jdk"
    rfl (by decide) rfl (by decide) rfl

/-- C6: with the include-path override unset and both conventional api
subdirectories existing under the source root, the probed include-directory
list is exactly the parent directories of the two subdirectories, pipes
parent first, utils parent second (and only those two existence checks are
performed). -/
theorem C6_conventional_include_dirs (env : String → Option String)
    (fs : ProbeFs) (is64 : Bool) (src : String)
    (henv : envTruthy env "HADOOP_INCLUDE_PATHS" = false)
    (h1 : fs.ex (pipesApiDir src) = true)
    (h2 : fs.ex (utilsApiDir src) = true) :
    set_mapred_inc_paths env fs is64 src =
      (Except.ok [pyDirname (pipesApiDir src), pyDirname (utilsApiDir src)],
       [pipesApiDir src, utilsApiDir src]) := by
  simp [set_mapred_inc_paths, henv, h1, h2]

/-- Empty environment. -/
def env0 : String → Option String := fun _ => none

/-- C6 witness: at the source root `/opt/hadoop/src` on a filesystem where
every path exists, the include list is the two api parents in order. -/
theorem C6_conventional_include_dirs_witness :
    set_mapred_inc_paths env0 fsAll true "/opt/hadoop/src" =
      (Except.ok [pyDirname (pipesApiDir "/opt/hadoop/src"),
                  pyDirname (utilsApiDir "/opt/hadoop/src")],
       [pipesApiDir "/opt/hadoop/src", utilsApiDir "/opt/hadoop/src"]) :=
  C6_conventional_include_dirs env0 fsAll true "/opt/hadoop/src" rfl rfl rfl

/-- Probing filesystem on which nothing exists and every glob is empty. -/
def fsNone : ProbeFs :=
  { ex := fun _ => false, ls := fun _ => [], glob := fun _ => [] }

/-- Environment for the C8 check that the consulted variable is
`HADOOP_INCLUDE_PATHS`. -/
def env8 : String → Option String :=
  fun k => if k = "HADOOP_INCLUDE_PATHS" then some "/my/inc" else none

/-- C8: with no include-directory candidate (conventional subdirectories
absent, all globs empty) and the override unset, the probe fails — but the
error message suggests `HADOOP_INC_PATH`, a variable the code never reads,
and does not name `HADOOP_INCLUDE_PATHS`, the variable that is actually
consulted (as the last conjunct shows).  This supports classifying the
claim as a code bug: the message does not name the consulted override. -/
theorem C8_error_names_wrong_variable :
    (set_mapred_inc_paths env0 fsNone true "/hs").1 = Except.error incErrMsg ∧
    occursIn "HADOOP_INC_PATH".toList incErrMsg.toList = true ∧
    occursIn "HADOOP_INCLUDE_PATHS".toList incErrMsg.toList = false ∧
    set_mapred_inc_paths env8 fsNone true "/hs" =
      (Except.ok ["/my/inc"], []) :=
  ⟨rfl, by decide, by decide, rfl⟩

/-! Lemmas for the `/usr/src` scan. -/

theorem sortedStrings_head_min (l : List String) (m : String)
    (rest : List String) (h : sortedStrings l = m :: rest) :
    m ∈ l ∧ ∀ x ∈ l, m ≤ x := by
  have hperm : List.Perm (sortedStrings l) l := List.perm_insertionSort _ l
  have hsort : List.Sorted (fun a b : String => a ≤ b) (sortedStrings l) :=
    List.sorted_insertionSort _ l
  rw [h] at hperm hsort
  refine ⟨hperm.mem_iff.mp (List.mem_cons_self m rest), ?_⟩
  intro x hx
  have hx' : x ∈ m :: rest := hperm.mem_iff.mpr hx
  rcases List.mem_cons.mp hx' with rfl | hx''
  · exact le_refl x
  · exact List.rel_of_sorted_cons hsort x hx''

theorem find_hadoop_src_scan (env : String → Option String) (fs : ProbeFs)
    (hh : Option String)
    (henv : env "HADOOP_SRC" = none)
    (hhome : ∀ h, hh = some h → h ≠ "" → fs.ex (pyJoin h "src") = false)
    (husr : fs.ex "/usr/src" = true) :
    (find_hadoop_src env fs hh).1 =
      (match (if 1 < ((fs.ls "/usr/src").filter hadoopNameMatch).length
          then sortedStrings ((fs.ls "/usr/src").filter hadoopNameMatch)
          else (fs.ls "/usr/src").filter hadoopNameMatch) with
       | p :: _ => some (pyJoin "/usr/src" p)
       | [] => none) := by
  have ht : envTruthy env "HADOOP_SRC" = false := by simp [envTruthy, henv]
  cases hh with
  | none =>
    simp only [find_hadoop_src, ht, Bool.false_eq_true, if_false, husr,
      if_true]
    cases hpl : (if 1 < ((fs.ls "/usr/src").filter hadoopNameMatch).length
        then sortedStrings ((fs.ls "/usr/src").filter hadoopNameMatch)
        else (fs.ls "/usr/src").filter hadoopNameMatch) <;> simp [hpl]
  | some h0 =>
    by_cases hh0 : h0 = ""
    · subst hh0
      simp only [find_hadoop_src, ht, Bool.false_eq_true, if_false, husr,
        if_true, ne_eq, not_true_eq_false]
      cases hpl : (if 1 < ((fs.ls "/usr/src").filter hadoopNameMatch).length
          then sortedStrings ((fs.ls "/usr/src").filter hadoopNameMatch)
          else (fs.ls "/usr/src").filter hadoopNameMatch) <;> simp [hpl]
    · have hex := hhome h0 rfl hh0
      simp only [find_hadoop_src, ht, Bool.false_eq_true, if_false, husr,
        if_true, ne_eq, hh0, not_false_eq_true, hex]
      cases hpl : (if 1 < ((fs.ls "/usr/src").filter hadoopNameMatch).length
          then sortedStrings ((fs.ls "/usr/src").filter hadoopNameMatch)
          else (fs.ls "/usr/src").filter hadoopNameMatch) <;> simp [hpl]

/-- C9: with the source-root override unset, the platform home providing no
`src` directory and `/usr/src` existing, the probe of the system source
directory behaves as follows: with two or more entries matching the name
prefix it returns the lexicographically smallest matching entry joined to
`/usr/src`; with exactly one match it returns that entry joined to
`/usr/src`; with no match the probe fails. -/
theorem C9_system_source_scan (env : String → Option String) (fs : ProbeFs)
    (hh : Option String)
    (henv : env "HADOOP_SRC" = none)
    (hhome : ∀ h, hh = some h → h ≠ "" → fs.ex (pyJoin h "src") = false)
    (husr : fs.ex "/usr/src" = true) :
    (2 ≤ ((fs.ls "/usr/src").filter hadoopNameMatch).length →
      ∃ m, (find_hadoop_src env fs hh).1 = some (pyJoin "/usr/src" m) ∧
        m ∈ (fs.ls "/usr/src").filter hadoopNameMatch ∧
        ∀ x ∈ (fs.ls "/usr/src").filter hadoopNameMatch, m ≤ x) ∧
    (∀ m, (fs.ls "/usr/src").filter hadoopNameMatch = [m] →
      (find_hadoop_src env fs hh).1 = some (pyJoin "/usr/src" m)) ∧
    ((fs.ls "/usr/src").filter hadoopNameMatch = [] →
      probe_src env fs hh = Except.error srcErrMsg) := by
  have hred := find_hadoop_src_scan env fs hh henv hhome husr
  refine ⟨?_, ?_, ?_⟩
  · intro h2
    have hgt : 1 < ((fs.ls "/usr/src").filter hadoopNameMatch).length := by
      omega
    rw [if_pos hgt] at hred
    have hlen : (sortedStrings ((fs.ls "/usr/src").filter hadoopNameMatch)).length =
        ((fs.ls "/usr/src").filter hadoopNameMatch).length :=
      (List.perm_insertionSort _ _).length_eq
    cases hsp : sortedStrings ((fs.ls "/usr/src").filter hadoopNameMatch) with
    | nil => rw [hsp] at hlen; simp at hlen; omega
    | cons m rest =>
      rw [hsp] at hred
      obtain ⟨hm, hmin⟩ :=
        sortedStrings_head_min ((fs.ls "/usr/src").filter hadoopNameMatch)
          m rest hsp
      exact ⟨m, hred, hm, hmin⟩
  · intro m hm
    rw [hm] at hred
    simpa using hred
  · intro hm
    rw [hm] at hred
    simp at hred
    simp [probe_src, hred]

/-- Probing filesystem for the C9 witness: only `/usr/src` exists and it
lists two matching entries and one non-matching entry. -/
def fs9 : ProbeFs :=
  { ex := fun p => p == "/usr/src",
    ls := fun p =>
      if p = "/usr/src" then ["hadoop-2.0.0", "hadoop-0.20.2", "linux-headers"]
      else [],
    glob := fun _ => [] }

/-- C9 witness: with two matching entries under `/usr/src`, the scan's
conclusion holds at a concrete environment and filesystem. -/
theorem C9_system_source_scan_witness :
    (2 ≤ ((fs9.ls "/usr/src").filter hadoopNameMatch).length →
      ∃ m, (find_hadoop_src env0 fs9 (some "/opt/hh")).1 =
          some (pyJoin "/usr/src" m) ∧
        m ∈ (fs9.ls "/usr/src").filter hadoopNameMatch ∧
        ∀ x ∈ (fs9.ls "/usr/src").filter hadoopNameMatch, m ≤ x) ∧
    (∀ m, (fs9.ls "/usr/src").filter hadoopNameMatch = [m] →
      (find_hadoop_src env0 fs9 (some "/opt/hh")).1 =
        some (pyJoin "/usr/src" m)) ∧
    ((fs9.ls "/usr/src").filter hadoopNameMatch = [] →
      probe_src env0 fs9 (some "/opt/hh") = Except.error srcErrMsg) :=
  C9_system_source_scan env0 fs9 (some "/opt/hh") rfl
    (fun h heq _ => by injection heq with h'; subst h'; rfl) rfl
